import Mathlib

/-!
Shallow embedding of the `flow` command orchestration layer
(`cmd/sql/flow.go` of rob-1126/astro-cli).

External effects are threaded through an explicit environment `Env`:
the working-directory read (`os.Getwd`), directory creation
(`os.MkdirAll`), the container execution collaborator
(`sql.ExecuteCmdInDocker`) and the output-stream decoder
(`sql.ConvertReadCloserToString`).  Every call to the container
execution collaborator is recorded in a trace of `ExecCall`s so that
sequencing claims can be stated.  Go error values are embedded as the
inductive `GoErr`; Go's `(value, error)` multiple returns are embedded
as pairs or `Except`; Go's nil slices/maps are embedded as `none`.
-/

namespace Flow

/-- Embedding of the Go error values produced or wrapped by the code
under study: `fmt.Errorf` wrappers, `sql.DockerNonZeroExitCodeError`,
and `sql.ArgNotSetError`.  `mock` stands for an arbitrary underlying
collaborator error. -/
inductive GoErr where
  | mock : String → GoErr
  | errorGettingCurrentDir : GoErr → GoErr
  | errorCreatingProjectDir : String → GoErr → GoErr
  | errorRunning : List String → GoErr → GoErr
  | dockerNonZeroExit : Int → GoErr
  | argNotSet : String → GoErr
deriving DecidableEq, Repr

/-- Result of `sql.ExecuteCmdInDocker`: `(exitCode int64, output io.ReadCloser, err error)`.
The output stream is modelled as a string handle to be decoded by `Env.decode`. -/
structure ExecResult where
  exitCode : Int
  output : String
  err : Option GoErr
deriving DecidableEq, Repr

/-- One recorded call to the container execution collaborator, with the
arguments `sql.ExecuteCmdInDocker` was given. -/
structure ExecCall where
  cmd : List String
  args : List String
  flags : List (String × String)
  mountDirs : List String
  returnOutput : Bool
deriving DecidableEq, Repr

/-- The effectful collaborators of the code under study. -/
structure Env where
  cwd : Except GoErr String
  mkdirAllErr : String → Option GoErr
  exec : List String → List String → List (String × String) → List String → Bool → ExecResult
  decode : String → Except GoErr String

/-- The package-level flag variables bound by the CLI parser
(`environment`, `connection`, `airflowHome`, ...), treated as read-only
inputs captured at composition start. -/
structure Globals where
  environment : String
  connection : String
  airflowHome : String
  airflowDagsFolder : String
  dataDir : String
  projectDir : String
  generateTasks : Bool
  noGenerateTasks : Bool
  verbose : Bool
  debug : Bool

/-- `strings.HasPrefix`, on the character-list view of strings (kept
kernel-computable). -/
def strStartsWith (s pre : String) : Bool :=
  pre.data.isPrefixOf s.data

/-- `strings.TrimSpace`: drop whitespace from both ends. -/
def strTrim (s : String) : String :=
  ⟨((s.data.dropWhile Char.isWhitespace).reverse.dropWhile Char.isWhitespace).reverse⟩

/-- Helper of `strSplitOnChar`: split a character list at a separator. -/
def splitOnCharAux (sep : Char) : List Char → List Char → List (List Char)
  | [], acc => [acc.reverse]
  | c :: cs, acc =>
    if c = sep then acc.reverse :: splitOnCharAux sep cs []
    else splitOnCharAux sep cs (c :: acc)

/-- `strings.Split` on a one-character separator. -/
def strSplitOnChar (sep : Char) (s : String) : List String :=
  (splitOnCharAux sep s.data []).map (fun l => ⟨l⟩)

/-- `strings.Join`. -/
def strIntercalate (sep : String) : List String → String
  | [] => ""
  | [s] => s
  | s :: ss => s ++ sep ++ strIntercalate sep ss

/-- `filepath.IsAbs` on Unix: the path starts with a slash. -/
def isAbs (path : String) : Bool :=
  strStartsWith path "/"

/-- One step of the component-stack form of Go's `filepath.Clean`
(Unix): skip empty and `.` components, resolve `..` against the stack
(kept in reverse order, most recent first). -/
def cleanStep (rooted : Bool) (stack : List String) (c : String) : List String :=
  if c = "" || c = "." then stack
  else if c = ".." then
    match stack with
    | [] => if rooted then [] else [".."]
    | top :: rest => if top = ".." then c :: top :: rest else rest
  else c :: stack

/-- Go's `filepath.Clean` on Unix, in component-stack form. -/
def goClean (path : String) : String :=
  if path = "" then "."
  else
    let rooted := strStartsWith path "/"
    let comps := ((strSplitOnChar '/' path).foldl (cleanStep rooted) []).reverse
    if rooted then "/" ++ strIntercalate "/" comps
    else if comps = [] then "."
    else strIntercalate "/" comps

/-- Go's `filepath.Join` restricted to two elements: drop leading empty
elements, join with a slash, clean the result. -/
def filepathJoin (d p : String) : String :=
  if d = "" && p = "" then ""
  else if d = "" then goClean p
  else goClean (d ++ "/" ++ p)

/-- `configCommandString = []string{"config"}` -/
def configCommandString : List String := ["config"]

/-- `globalConfigKeys = []string{"airflow_home", "airflow_dags_folder", "data_dir"}` -/
def globalConfigKeys : List String := ["airflow_home", "airflow_dags_folder", "data_dir"]

/-- `getAbsolutePath`: return the path unchanged when it is absolute,
non-empty and not `"."`; otherwise join it with the current working
directory, wrapping a failure to read the working directory. -/
def getAbsolutePath (env : Env) (path : String) : Except GoErr String :=
  if !isAbs path || path == "" || path == "." then
    match env.cwd with
    | .error e => .error (.errorGettingCurrentDir e)
    | .ok currentDir => .ok (filepathJoin currentDir path)
  else
    .ok path

/-- `createProjectDir`: resolve the project directory and ensure it
exists via `os.MkdirAll`, wrapping a creation failure. -/
def createProjectDir (env : Env) (projectDir : String) : Except GoErr String :=
  match getAbsolutePath env projectDir with
  | .error e => .error e
  | .ok projectDirAbs =>
    match env.mkdirAllErr projectDirAbs with
    | some e => .error (.errorCreatingProjectDir projectDirAbs e)
    | none => .ok projectDirAbs

/-- `getBaseMountDirs`: the mount list starts as the singleton of the
created project directory. -/
def getBaseMountDirs (env : Env) (projectDir : String) : Except GoErr (List String) :=
  match createProjectDir env projectDir with
  | .error e => .error e
  | .ok mountDir => .ok [mountDir]

/-- `appendConfigKeyMountDir`: one nested config sub-invocation for one
global key.  Mirrors the Go function: on a transport error the error is
wrapped with `configCommandString`; a non-zero exit code becomes
`dockerNonZeroExit`; a decode failure is returned as-is; on success the
trimmed output is appended to the mount list.  The Go `([]string, error)`
return is the first component; the second component is the recorded
collaborator call. -/
def appendConfigKeyMountDir (env : Env) (configKey : String)
    (configFlags : List (String × String)) (mountDirs : List String) :
    (List String × Option GoErr) × List ExecCall :=
  let args := [configKey]
  let r := env.exec configCommandString args configFlags mountDirs true
  let call : ExecCall := ⟨configCommandString, args, configFlags, mountDirs, true⟩
  match r.err with
  | some e => ((mountDirs, some (.errorRunning configCommandString e)), [call])
  | none =>
    if r.exitCode != 0 then
      ((mountDirs, some (.dockerNonZeroExit r.exitCode)), [call])
    else
      match env.decode r.output with
      | .error e => ((mountDirs, some e), [call])
      | .ok configKeyDir => ((mountDirs ++ [strTrim configKeyDir], none), [call])

/-- The `for _, globalConfigKey := range globalConfigKeys` loop of
`buildFlagsAndMountDirs`: issue the sub-invocations one key at a time,
stopping at the first failure. -/
def globalKeyLoop (env : Env) (configFlags : List (String × String)) :
    List String → List String → (List String × Option GoErr) × List ExecCall
  | [], mountDirs => ((mountDirs, none), [])
  | key :: keys, mountDirs =>
    match appendConfigKeyMountDir env key configFlags mountDirs with
    | ((mountDirs', some e), tr) => ((mountDirs', some e), tr)
    | ((mountDirs', none), tr) =>
      match globalKeyLoop env configFlags keys mountDirs' with
      | ((res, e), tr') => ((res, e), tr ++ tr')

/-- Result triple of `buildFlagsAndMountDirs`; `none` embeds Go's nil
map/slice returned on the error paths. -/
structure BuildResult where
  flags : Option (List (String × String))
  mountDirs : Option (List String)
  err : Option GoErr
deriving DecidableEq, Repr

/-- One of the three optional local directory blocks of
`buildFlagsAndMountDirs`: when requested and non-empty, resolve the
directory, set its flag and append it to the mount list. -/
def localDirStep (env : Env) (want : Bool) (dir flagName : String)
    (flags : List (String × String)) (mountDirs : List String) :
    Except GoErr (List (String × String) × List String) :=
  if want && dir != "" then
    match getAbsolutePath env dir with
    | .error e => .error e
    | .ok dirAbs => .ok (flags ++ [(flagName, dirAbs)], mountDirs ++ [dirAbs])
  else
    .ok (flags, mountDirs)

/-- The `if setProjectDir` block of `buildFlagsAndMountDirs`: resolve
the project directory and set the `project-dir` flag, yielding the
(possibly re-resolved) project directory and the flag map so far. -/
def projectDirFlagStep (env : Env) (setProjectDir : Bool) (projectDir : String) :
    Except GoErr (String × List (String × String)) :=
  if setProjectDir then
    match getAbsolutePath env projectDir with
    | .error e => .error e
    | .ok projectDirAbs => .ok (projectDirAbs, [("project-dir", projectDirAbs)])
  else .ok (projectDir, [])

/-- The `if mountGlobalDirs` block of `buildFlagsAndMountDirs`: run the
global-key loop with a `project-dir` config flag, or do nothing. -/
def globalMountStep (env : Env) (mountGlobalDirs : Bool) (projectDir : String)
    (mountDirs : List String) : (List String × Option GoErr) × List ExecCall :=
  if mountGlobalDirs then
    globalKeyLoop env [("project-dir", projectDir)] globalConfigKeys mountDirs
  else ((mountDirs, none), [])

/-- `buildFlagsAndMountDirs`: base mounts, optional `project-dir` flag,
optional global-key loop, then the three optional local directory
blocks, each aborting the composition on error with nil flags and nil
mounts. -/
def buildFlagsAndMountDirs (env : Env) (g : Globals) (projectDir : String)
    (setProjectDir setAirflowHome setAirflowDagsFolder setDataDir mountGlobalDirs : Bool) :
    BuildResult × List ExecCall :=
  match getBaseMountDirs env projectDir with
  | .error e => (⟨none, none, some e⟩, [])
  | .ok mountDirs =>
    match projectDirFlagStep env setProjectDir projectDir with
    | .error e => (⟨none, none, some e⟩, [])
    | .ok (projectDir, flags) =>
      match globalMountStep env mountGlobalDirs projectDir mountDirs with
      | ((_, some e), tr) => (⟨none, none, some e⟩, tr)
      | ((mountDirs, none), tr) =>
        match localDirStep env setAirflowHome g.airflowHome "airflow-home" flags mountDirs with
        | .error e => (⟨none, none, some e⟩, tr)
        | .ok (flags, mountDirs) =>
          match localDirStep env setAirflowDagsFolder g.airflowDagsFolder "airflow-dags-folder" flags mountDirs with
          | .error e => (⟨none, none, some e⟩, tr)
          | .ok (flags, mountDirs) =>
            match localDirStep env setDataDir g.dataDir "data-dir" flags mountDirs with
            | .error e => (⟨none, none, some e⟩, tr)
            | .ok (flags, mountDirs) => (⟨some flags, some mountDirs, none⟩, tr)

/-- The command token sequence of `executeCmd`/the dispatcher:
`[name]`, or `["--debug", name]` when the debug flag is set. -/
def cmdTokens (debug : Bool) (name : String) : List String :=
  if debug then ["--debug", name] else [name]

/-- `executeCmd`: dispatch the real command in the container, mapping a
transport failure to a wrapped error and a non-zero exit code to
`dockerNonZeroExit`, both returned to the caller. -/
def executeCmd (env : Env) (debug : Bool) (name : String) (args : List String)
    (flags : List (String × String)) (mountDirs : List String) :
    Option GoErr × List ExecCall :=
  let cmdString := cmdTokens debug name
  let r := env.exec cmdString args flags mountDirs false
  let call : ExecCall := ⟨cmdString, args, flags, mountDirs, false⟩
  match r.err with
  | some e => (some (.errorRunning cmdString e), [call])
  | none =>
    if r.exitCode != 0 then (some (.dockerNonZeroExit r.exitCode), [call])
    else (none, [call])

/-- Outcome of the help callback: it has no error return channel, so a
failure aborts the process (`panic`). -/
inductive HelpOutcome where
  | ok : HelpOutcome
  | panicked : GoErr → HelpOutcome
deriving DecidableEq, Repr

/-- `executeHelp`: same dispatch as `executeCmd` (with nil args, flags
and mounts), but a transport failure or non-zero exit code is raised as
a panic instead of being returned. -/
def executeHelp (env : Env) (cmdString : List String) : HelpOutcome × List ExecCall :=
  let r := env.exec cmdString [] [] [] false
  let call : ExecCall := ⟨cmdString, [], [], [], false⟩
  match r.err with
  | some e => (.panicked (.errorRunning cmdString e), [call])
  | none =>
    if r.exitCode != 0 then (.panicked (.dockerNonZeroExit r.exitCode), [call])
    else (.ok, [call])

/-- The project-directory override shared by `executeInit` and
`executeValidate`: `if len(args) > 0 { projectDir = args[0] }`. -/
def cliProjectDir (g : Globals) : List String → String
  | [] => g.projectDir
  | a :: _ => a

/-- `executeInit`: build flags/mounts for the init table row, then
dispatch `init` with the single positional argument `mountDirs[0]`. -/
def executeInit (env : Env) (g : Globals) (args : List String) :
    Option GoErr × List ExecCall :=
  let projectDir := cliProjectDir g args
  match buildFlagsAndMountDirs env g projectDir false true true true false with
  | (res, tr) =>
    match res.err with
    | some e => (some e, tr)
    | none =>
      let flags := res.flags.getD []
      let mountDirs := res.mountDirs.getD []
      let projectDirAbsolute := mountDirs.headD ""
      let args := [projectDirAbsolute]
      match executeCmd env g.debug "init" args flags mountDirs with
      | (e, tr') => (e, tr ++ tr')

/-- `executeValidate`: build flags/mounts for the validate table row,
then dispatch `validate` with the single positional argument
`mountDirs[0]`, plus optional env/connection flags and a trailing
`--verbose` token. -/
def executeValidate (env : Env) (g : Globals) (args : List String) :
    Option GoErr × List ExecCall :=
  let projectDir := cliProjectDir g args
  match buildFlagsAndMountDirs env g projectDir false false false false false with
  | (res, tr) =>
    match res.err with
    | some e => (some e, tr)
    | none =>
      let flags := res.flags.getD []
      let mountDirs := res.mountDirs.getD []
      let projectDirAbsolute := mountDirs.headD ""
      let args := [projectDirAbsolute]
      let flags := if g.environment != "" then flags ++ [("env", g.environment)] else flags
      let flags := if g.connection != "" then flags ++ [("connection", g.connection)] else flags
      let args := if g.verbose then args ++ ["--verbose"] else args
      match executeCmd env g.debug "validate" args flags mountDirs with
      | (e, tr') => (e, tr ++ tr')

/-- `executeGenerate`: require the `workflow_name` positional argument,
build flags/mounts for the generate table row, then dispatch. -/
def executeGenerate (env : Env) (g : Globals) (args : List String) :
    Option GoErr × List ExecCall :=
  if args.length < 1 then (some (.argNotSet "workflow_name"), [])
  else
    match buildFlagsAndMountDirs env g g.projectDir true false false false true with
    | (res, tr) =>
      match res.err with
      | some e => (some e, tr)
      | none =>
        let flags := res.flags.getD []
        let mountDirs := res.mountDirs.getD []
        let args := if g.generateTasks then args ++ ["--generate-tasks"] else args
        let args := if g.noGenerateTasks then args ++ ["--no-generate-tasks"] else args
        let flags := if g.environment != "" then flags ++ [("env", g.environment)] else flags
        let args := if g.verbose then args ++ ["--verbose"] else args
        match executeCmd env g.debug "generate" args flags mountDirs with
        | (e, tr') => (e, tr ++ tr')

/-- `executeRun`: require the `workflow_name` positional argument,
build flags/mounts for the run table row, then dispatch. -/
def executeRun (env : Env) (g : Globals) (args : List String) :
    Option GoErr × List ExecCall :=
  if args.length < 1 then (some (.argNotSet "workflow_name"), [])
  else
    match buildFlagsAndMountDirs env g g.projectDir true false false false true with
    | (res, tr) =>
      match res.err with
      | some e => (some e, tr)
      | none =>
        let flags := res.flags.getD []
        let mountDirs := res.mountDirs.getD []
        let flags := if g.environment != "" then flags ++ [("env", g.environment)] else flags
        let args := if g.verbose then args ++ ["--verbose"] else args
        let args := if g.generateTasks then args ++ ["--generate-tasks"] else args
        let args := if g.noGenerateTasks then args ++ ["--no-generate-tasks"] else args
        match executeCmd env g.debug "run" args flags mountDirs with
        | (e, tr') => (e, tr ++ tr')

instance {ε α : Type} [DecidableEq ε] [DecidableEq α] : DecidableEq (Except ε α) := fun a b =>
  match a, b with
  | .ok x, .ok y =>
    if h : x = y then .isTrue (by rw [h]) else .isFalse (by simp [h])
  | .error x, .error y =>
    if h : x = y then .isTrue (by rw [h]) else .isFalse (by simp [h])
  | .ok _, .error _ => .isFalse (by simp)
  | .error _, .ok _ => .isFalse (by simp)

/-! Concrete environments used to instantiate the theorems. -/

/-- Globals with every flag variable at its zero value. -/
def gBlank : Globals :=
  ⟨"", "", "", "", "", "", false, false, false, false⟩

/-- An environment whose nested config queries answer `/a`, `/b`, `/c`
for the three global keys, with a fixed working directory and no
filesystem failures. -/
def envHappy : Env where
  cwd := .ok "/cwd"
  mkdirAllErr := fun _ => none
  exec := fun _ args _ _ _ =>
    if args = ["airflow_home"] then ⟨0, "/a", none⟩
    else if args = ["airflow_dags_folder"] then ⟨0, "/b", none⟩
    else if args = ["data_dir"] then ⟨0, "/c", none⟩
    else ⟨0, "", none⟩
  decode := fun s => .ok s

/-- An environment whose container execution always exits with code 1
and no transport error. -/
def envExit1 : Env where
  cwd := .ok "/cwd"
  mkdirAllErr := fun _ => none
  exec := fun _ _ _ _ _ => ⟨1, "", none⟩
  decode := fun s => .ok s

/-- An environment whose container execution always fails with a
transport error. -/
def envBoom : Env where
  cwd := .ok "/cwd"
  mkdirAllErr := fun _ => none
  exec := fun _ _ _ _ _ => ⟨0, "", some (.mock "boom")⟩
  decode := fun s => .ok s

/-- An environment where the working directory cannot be determined. -/
def envNoCwd : Env where
  cwd := .error (.mock "nocwd")
  mkdirAllErr := fun _ => none
  exec := fun _ _ _ _ _ => ⟨0, "", none⟩
  decode := fun s => .ok s

/-! Helper lemmas about the nested config query and the global-key loop. -/

/-- A nested config query records exactly one collaborator call, made
with the `config` command token, the key as sole positional argument,
and the caller's flags and mounts. -/
theorem appendConfigKeyMountDir_trace (env : Env) (key : String)
    (cf : List (String × String)) (md : List String) :
    (appendConfigKeyMountDir env key cf md).2 =
      [⟨configCommandString, [key], cf, md, true⟩] := by
  unfold appendConfigKeyMountDir
  cases h : (env.exec configCommandString [key] cf md true).err
  · cases hd : env.decode (env.exec configCommandString [key] cf md true).output <;>
      simp [h, hd] <;> split <;> simp
  · simp [h]

/-- A nested config query either fails and returns the mount list it
was given, or succeeds and returns that list with one appended entry;
either way it records exactly the one collaborator call. -/
theorem appendConfigKeyMountDir_cases (env : Env) (key : String)
    (cf : List (String × String)) (md : List String) :
    (∃ e, appendConfigKeyMountDir env key cf md =
        ((md, some e), [⟨configCommandString, [key], cf, md, true⟩])) ∨
    (∃ s, appendConfigKeyMountDir env key cf md =
        ((md ++ [s], none), [⟨configCommandString, [key], cf, md, true⟩])) := by
  unfold appendConfigKeyMountDir
  cases h : (env.exec configCommandString [key] cf md true).err
  · cases hd : env.decode (env.exec configCommandString [key] cf md true).output
    · simp only [h, hd]
      split
      · exact Or.inl ⟨_, rfl⟩
      · exact Or.inl ⟨_, rfl⟩
    · simp only [h, hd]
      split
      · exact Or.inl ⟨_, rfl⟩
      · exact Or.inr ⟨_, rfl⟩
  · next e => exact Or.inl ⟨.errorRunning configCommandString e, by simp [h]⟩

/-- The global-key loop only ever appends to the mount list it is
given, on success and on failure alike. -/
theorem globalKeyLoop_extends (env : Env) (cf : List (String × String)) :
    ∀ (keys : List String) (md : List String),
      ∃ ex, (globalKeyLoop env cf keys md).1.1 = md ++ ex := by
  intro keys
  induction keys with
  | nil => intro md; exact ⟨[], by simp [globalKeyLoop]⟩
  | cons key keys ih =>
    intro md
    unfold globalKeyLoop
    rcases appendConfigKeyMountDir_cases env key cf md with ⟨e, hc⟩ | ⟨s, hc⟩
    · rw [hc]
      exact ⟨[], by simp⟩
    · rw [hc]
      rcases ih (md ++ [s]) with ⟨ex, hex⟩
      refine ⟨[s] ++ ex, ?_⟩
      simp
      simpa using hex

/-- The global-key loop's trace covers an initial segment of the key
list, one call per key in order; it covers the whole list whenever no
key failed, and is non-empty whenever some key failed. -/
theorem globalKeyLoop_trace (env : Env) (cf : List (String × String)) :
    ∀ (keys : List String) (md : List String),
      ∃ n, n ≤ keys.length ∧
        ((globalKeyLoop env cf keys md).2.map (fun c => c.args)) =
          (keys.take n).map (fun k => [k]) ∧
        ((globalKeyLoop env cf keys md).1.2 = none → n = keys.length) ∧
        ((globalKeyLoop env cf keys md).1.2 ≠ none → 1 ≤ n) := by
  intro keys
  induction keys with
  | nil =>
    intro md
    exact ⟨0, by simp [globalKeyLoop]⟩
  | cons key keys ih =>
    intro md
    unfold globalKeyLoop
    rcases appendConfigKeyMountDir_cases env key cf md with ⟨e, hc⟩ | ⟨s, hc⟩
    · rw [hc]
      exact ⟨1, by simp, by simp, by simp, fun _ => le_refl 1⟩
    · rw [hc]
      dsimp only
      rcases ih (md ++ [s]) with ⟨n, hn, htr, hnone, hsome⟩
      rcases hl : globalKeyLoop env cf keys (md ++ [s]) with ⟨⟨res, e2⟩, tr'⟩
      rw [hl] at htr hnone hsome
      dsimp only at htr hnone hsome ⊢
      refine ⟨n + 1, by simpa using hn, ?_, ?_, fun _ => by omega⟩
      · simpa using htr
      · intro he
        simp [hnone he]

/-- Every call recorded by the global-key loop is a captured-output
`config` sub-invocation. -/
theorem globalKeyLoop_calls (env : Env) (cf : List (String × String)) :
    ∀ (keys : List String) (md : List String),
      ∀ c ∈ (globalKeyLoop env cf keys md).2,
        c.cmd = configCommandString ∧ c.returnOutput = true := by
  intro keys
  induction keys with
  | nil => intro md c hc; simp [globalKeyLoop] at hc
  | cons key keys ih =>
    intro md c hc
    unfold globalKeyLoop at hc
    rcases appendConfigKeyMountDir_cases env key cf md with ⟨e, hceq⟩ | ⟨s, hceq⟩
    · rw [hceq] at hc
      simp at hc
      subst hc
      exact ⟨rfl, rfl⟩
    · rw [hceq] at hc
      dsimp only at hc
      rcases hl : globalKeyLoop env cf keys (md ++ [s]) with ⟨⟨res, e2⟩, tr'⟩
      rw [hl] at hc
      simp at hc
      rcases hc with hc | hc
      · subst hc; exact ⟨rfl, rfl⟩
      · exact ih (md ++ [s]) c (by rw [hl]; exact hc)

/-- `executeCmd` records exactly one collaborator call: the dispatch of
the named command with the composed arguments, flags and mounts. -/
theorem executeCmd_trace (env : Env) (dbg : Bool) (name : String)
    (args : List String) (fl : List (String × String)) (md : List String) :
    (executeCmd env dbg name args fl md).2 =
      [⟨cmdTokens dbg name, args, fl, md, false⟩] := by
  unfold executeCmd
  cases h : (env.exec (cmdTokens dbg name) args fl md false).err
  · simp [h]; split <;> simp
  · simp [h]

/-- Inversion of a successful `getBaseMountDirs`: the project directory
resolved, its creation succeeded, and the base mount list is the
singleton of the resolved directory. -/
theorem getBaseMountDirs_ok (env : Env) (pd : String) (l : List String)
    (h : getBaseMountDirs env pd = .ok l) :
    ∃ pdAbs, getAbsolutePath env pd = .ok pdAbs ∧ l = [pdAbs] ∧
      env.mkdirAllErr pdAbs = none := by
  unfold getBaseMountDirs createProjectDir at h
  cases habs : getAbsolutePath env pd with
  | error e => rw [habs] at h; simp at h
  | ok pdAbs =>
    rw [habs] at h
    dsimp only at h
    cases hmk : env.mkdirAllErr pdAbs with
    | some e => rw [hmk] at h; simp at h
    | none =>
      rw [hmk] at h
      simp at h
      exact ⟨pdAbs, rfl, h.symm, hmk⟩

/-- Inversion of a successful local-directory block: the mount list is
only extended. -/
theorem localDirStep_ok (env : Env) (want : Bool) (dir fn : String)
    (fl : List (String × String)) (md : List String)
    (fl' : List (String × String)) (md' : List String)
    (h : localDirStep env want dir fn fl md = .ok (fl', md')) :
    ∃ ex, md' = md ++ ex := by
  unfold localDirStep at h
  split at h
  · cases habs : getAbsolutePath env dir with
    | error e => rw [habs] at h; simp at h
    | ok d =>
      rw [habs] at h
      simp at h
      exact ⟨[d], h.2.symm⟩
  · simp at h
    exact ⟨[], by simp [h.2.symm]⟩

/-- The optional global-mount step only ever appends to the mount list. -/
theorem globalMountStep_extends (env : Env) (b : Bool) (pd : String) (md : List String) :
    ∃ ex, (globalMountStep env b pd md).1.1 = md ++ ex := by
  unfold globalMountStep
  cases b
  · exact ⟨[], by simp⟩
  · simpa using globalKeyLoop_extends env [("project-dir", pd)] globalConfigKeys md

/-- The composer returns either nil flags, nil mounts and an error, or
present flags and mounts and no error. -/
theorem buildFlags_shape (env : Env) (g : Globals) (pd : String)
    (b1 b2 b3 b4 b5 : Bool) :
    (∃ e, (buildFlagsAndMountDirs env g pd b1 b2 b3 b4 b5).1 = ⟨none, none, some e⟩) ∨
    (∃ fl md, (buildFlagsAndMountDirs env g pd b1 b2 b3 b4 b5).1 = ⟨some fl, some md, none⟩) := by
  unfold buildFlagsAndMountDirs
  cases getBaseMountDirs env pd with
  | error e => exact Or.inl ⟨e, rfl⟩
  | ok mounts0 =>
    cases projectDirFlagStep env b1 pd with
    | error e => exact Or.inl ⟨e, rfl⟩
    | ok pr =>
      rcases pr with ⟨pd2, fl0⟩
      dsimp only
      rcases hg : globalMountStep env b5 pd2 mounts0 with ⟨⟨md1, e1⟩, tr1⟩
      cases e1 with
      | some e => exact Or.inl ⟨e, rfl⟩
      | none =>
        dsimp only
        cases localDirStep env b2 g.airflowHome "airflow-home" fl0 md1 with
        | error e => exact Or.inl ⟨e, rfl⟩
        | ok p1 =>
          rcases p1 with ⟨fl1, mdl1⟩
          dsimp only
          cases localDirStep env b3 g.airflowDagsFolder "airflow-dags-folder" fl1 mdl1 with
          | error e => exact Or.inl ⟨e, rfl⟩
          | ok p2 =>
            rcases p2 with ⟨fl2, mdl2⟩
            dsimp only
            cases localDirStep env b4 g.dataDir "data-dir" fl2 mdl2 with
            | error e => exact Or.inl ⟨e, rfl⟩
            | ok p3 =>
              rcases p3 with ⟨fl3, mdl3⟩
              exact Or.inr ⟨fl3, mdl3, rfl⟩

/-- Inversion of a successful composition: the project directory
resolved, and the returned mount list is non-empty with the resolved
project directory as its first element. -/
theorem buildFlags_ok_head (env : Env) (g : Globals) (pd : String)
    (b1 b2 b3 b4 b5 : Bool) (fl : List (String × String)) (md : List String)
    (tr : List ExecCall)
    (h : buildFlagsAndMountDirs env g pd b1 b2 b3 b4 b5 = (⟨some fl, some md, none⟩, tr)) :
    ∃ pdAbs, getAbsolutePath env pd = .ok pdAbs ∧ md.head? = some pdAbs := by
  unfold buildFlagsAndMountDirs at h
  cases hbase : getBaseMountDirs env pd with
  | error e => rw [hbase] at h; simp at h
  | ok mounts0 =>
    rw [hbase] at h
    dsimp only at h
    obtain ⟨pdAbs, habs, hm0, hmk⟩ := getBaseMountDirs_ok env pd mounts0 hbase
    subst hm0
    refine ⟨pdAbs, habs, ?_⟩
    cases hstep : projectDirFlagStep env b1 pd with
    | error e => rw [hstep] at h; simp at h
    | ok pr =>
      rw [hstep] at h
      rcases pr with ⟨pd2, fl0⟩
      dsimp only at h
      rcases hg : globalMountStep env b5 pd2 [pdAbs] with ⟨⟨md1, e1⟩, tr1⟩
      rw [hg] at h
      cases e1 with
      | some e => simp at h
      | none =>
        dsimp only at h
        have hext0 : ∃ ex, md1 = [pdAbs] ++ ex := by
          have hx := globalMountStep_extends env b5 pd2 [pdAbs]
          rw [hg] at hx
          simpa using hx
        cases hl1 : localDirStep env b2 g.airflowHome "airflow-home" fl0 md1 with
        | error e => rw [hl1] at h; simp at h
        | ok p1 =>
          rw [hl1] at h
          rcases p1 with ⟨fl1, mdl1⟩
          dsimp only at h
          cases hl2 : localDirStep env b3 g.airflowDagsFolder "airflow-dags-folder" fl1 mdl1 with
          | error e => rw [hl2] at h; simp at h
          | ok p2 =>
            rw [hl2] at h
            rcases p2 with ⟨fl2, mdl2⟩
            dsimp only at h
            cases hl3 : localDirStep env b4 g.dataDir "data-dir" fl2 mdl2 with
            | error e => rw [hl3] at h; simp at h
            | ok p3 =>
              rw [hl3] at h
              rcases p3 with ⟨fl3, mdl3⟩
              dsimp only at h
              simp only [Prod.mk.injEq, BuildResult.mk.injEq, Option.some.injEq] at h
              obtain ⟨⟨hfl, hmd, -⟩, htr⟩ := h
              obtain ⟨ex0, hex0⟩ := hext0
              obtain ⟨ex1, hex1⟩ := localDirStep_ok env b2 _ _ fl0 md1 fl1 mdl1 hl1
              obtain ⟨ex2, hex2⟩ := localDirStep_ok env b3 _ _ fl1 mdl1 fl2 mdl2 hl2
              obtain ⟨ex3, hex3⟩ := localDirStep_ok env b4 _ _ fl2 mdl2 fl3 mdl3 hl3
              subst hmd
              simp [hex3, hex2, hex1, hex0]

/-! Claim theorems. -/

/-- C1: every successful call to `buildFlagsAndMountDirs`, regardless
of the five boolean parameters, returns a non-empty mount list whose
first element is the resolved (absolute) project directory; the
global-key loop and the local-directory blocks only append after it. -/
theorem buildFlagsAndMountDirs_first_mount_is_project_dir
    (env : Env) (g : Globals) (pd : String) (b1 b2 b3 b4 b5 : Bool)
    (fl : List (String × String)) (md : List String) (tr : List ExecCall)
    (h : buildFlagsAndMountDirs env g pd b1 b2 b3 b4 b5 = (⟨some fl, some md, none⟩, tr)) :
    md ≠ [] ∧ ∃ pdAbs, getAbsolutePath env pd = .ok pdAbs ∧ md.head? = some pdAbs := by
  obtain ⟨pdAbs, habs, hh⟩ := buildFlags_ok_head env g pd b1 b2 b3 b4 b5 fl md tr h
  refine ⟨?_, pdAbs, habs, hh⟩
  rintro rfl
  simp at hh

/-- Witness for C1 at a concrete environment: the generate-row
composition with sub-invocations answering `/a`, `/b`, `/c`. -/
theorem buildFlagsAndMountDirs_first_mount_is_project_dir_witness :
    (["/tmp/proj", "/a", "/b", "/c"] : List String) ≠ [] ∧
    ∃ pdAbs, getAbsolutePath envHappy "/tmp/proj" = .ok pdAbs ∧
      (["/tmp/proj", "/a", "/b", "/c"] : List String).head? = some pdAbs :=
  buildFlagsAndMountDirs_first_mount_is_project_dir envHappy gBlank "/tmp/proj"
    true false false false true
    [("project-dir", "/tmp/proj")] ["/tmp/proj", "/a", "/b", "/c"]
    [⟨["config"], ["airflow_home"], [("project-dir", "/tmp/proj")], ["/tmp/proj"], true⟩,
     ⟨["config"], ["airflow_dags_folder"], [("project-dir", "/tmp/proj")], ["/tmp/proj", "/a"], true⟩,
     ⟨["config"], ["data_dir"], [("project-dir", "/tmp/proj")], ["/tmp/proj", "/a", "/b"], true⟩]
    (by decide)

/-- C3: the path resolver returns a non-empty absolute path other than
`"."` unchanged; a non-absolute, empty, or `"."` path is joined with
the current working directory, and resolution fails (with the
current-directory wrapper error) exactly when the working directory
cannot be determined. -/
theorem getAbsolutePath_spec (env : Env) (p : String) :
    (p ≠ "" → p ≠ "." → isAbs p = true → getAbsolutePath env p = .ok p) ∧
    ((isAbs p = false ∨ p = "" ∨ p = ".") →
      getAbsolutePath env p =
        match env.cwd with
        | .ok currentDir => .ok (filepathJoin currentDir p)
        | .error e => .error (.errorGettingCurrentDir e)) := by
  constructor
  · intro h1 h2 h3
    have hcond : (!isAbs p || p == "" || p == ".") = false := by
      simp [h3, h1, h2]
    simp [getAbsolutePath, hcond]
  · intro hcond
    have hcond' : (!isAbs p || p == "" || p == ".") = true := by
      rcases hcond with h | h | h <;> simp [h]
    simp only [getAbsolutePath, hcond', if_true]
    cases env.cwd <;> rfl

/-- Witness for C3: an absolute path is returned unchanged; a relative
path is joined with the working directory; with an undeterminable
working directory a relative path fails with the wrapper error. -/
theorem getAbsolutePath_spec_witness :
    getAbsolutePath envHappy "/x" = .ok "/x" ∧
    getAbsolutePath envHappy "sub" =
      (match envHappy.cwd with
       | .ok currentDir => .ok (filepathJoin currentDir "sub")
       | .error e => .error (.errorGettingCurrentDir e)) ∧
    getAbsolutePath envNoCwd "sub" =
      (match envNoCwd.cwd with
       | .ok currentDir => .ok (filepathJoin currentDir "sub")
       | .error e => .error (.errorGettingCurrentDir e)) :=
  ⟨(getAbsolutePath_spec envHappy "/x").1 (by decide) (by decide) (by decide),
   (getAbsolutePath_spec envHappy "sub").2 (Or.inl (by decide)),
   (getAbsolutePath_spec envNoCwd "sub").2 (Or.inl (by decide))⟩

/-- C7: invoking the generate or run handler with an empty positional
argument list returns the `argument not set: workflow_name` error and
records zero calls to the container execution collaborator. -/
theorem generate_run_missing_workflow_name (env : Env) (g : Globals) :
    executeGenerate env g [] = (some (.argNotSet "workflow_name"), []) ∧
    executeRun env g [] = (some (.argNotSet "workflow_name"), []) :=
  ⟨rfl, rfl⟩

/-- C2: composing for the generate/run table row with
`projectDir="/tmp/proj"`, when the three global-key sub-invocations
succeed with outputs decoding to `/a`, `/b`, `/c`, yields exactly the
flag map `{"project-dir": "/tmp/proj"}` and exactly the mounts
`["/tmp/proj", "/a", "/b", "/c"]` in that order. -/
theorem compose_generate_end_to_end (env : Env) (g : Globals) (oA oB oC : String)
    (hmk : env.mkdirAllErr "/tmp/proj" = none)
    (h1 : env.exec ["config"] ["airflow_home"] [("project-dir", "/tmp/proj")]
        ["/tmp/proj"] true = ⟨0, oA, none⟩)
    (d1 : env.decode oA = .ok "/a")
    (h2 : env.exec ["config"] ["airflow_dags_folder"] [("project-dir", "/tmp/proj")]
        ["/tmp/proj", "/a"] true = ⟨0, oB, none⟩)
    (d2 : env.decode oB = .ok "/b")
    (h3 : env.exec ["config"] ["data_dir"] [("project-dir", "/tmp/proj")]
        ["/tmp/proj", "/a", "/b"] true = ⟨0, oC, none⟩)
    (d3 : env.decode oC = .ok "/c") :
    (buildFlagsAndMountDirs env g "/tmp/proj" true false false false true).1 =
      ⟨some [("project-dir", "/tmp/proj")], some ["/tmp/proj", "/a", "/b", "/c"], none⟩ := by
  have a1 : appendConfigKeyMountDir env "airflow_home"
      [("project-dir", "/tmp/proj")] ["/tmp/proj"] =
      ((["/tmp/proj", "/a"], none),
       [⟨["config"], ["airflow_home"], [("project-dir", "/tmp/proj")], ["/tmp/proj"], true⟩]) := by
    unfold appendConfigKeyMountDir
    simp only [configCommandString]
    rw [h1]
    dsimp only
    rw [d1]
    dsimp only
    rw [show strTrim "/a" = "/a" from by decide]
    simp
  have a2 : appendConfigKeyMountDir env "airflow_dags_folder"
      [("project-dir", "/tmp/proj")] ["/tmp/proj", "/a"] =
      ((["/tmp/proj", "/a", "/b"], none),
       [⟨["config"], ["airflow_dags_folder"], [("project-dir", "/tmp/proj")],
         ["/tmp/proj", "/a"], true⟩]) := by
    unfold appendConfigKeyMountDir
    simp only [configCommandString]
    rw [h2]
    dsimp only
    rw [d2]
    dsimp only
    rw [show strTrim "/b" = "/b" from by decide]
    simp
  have a3 : appendConfigKeyMountDir env "data_dir"
      [("project-dir", "/tmp/proj")] ["/tmp/proj", "/a", "/b"] =
      ((["/tmp/proj", "/a", "/b", "/c"], none),
       [⟨["config"], ["data_dir"], [("project-dir", "/tmp/proj")],
         ["/tmp/proj", "/a", "/b"], true⟩]) := by
    unfold appendConfigKeyMountDir
    simp only [configCommandString]
    rw [h3]
    dsimp only
    rw [d3]
    dsimp only
    rw [show strTrim "/c" = "/c" from by decide]
    simp
  have eg : globalKeyLoop env [("project-dir", "/tmp/proj")] globalConfigKeys ["/tmp/proj"] =
      ((["/tmp/proj", "/a", "/b", "/c"], none),
       [⟨["config"], ["airflow_home"], [("project-dir", "/tmp/proj")], ["/tmp/proj"], true⟩,
        ⟨["config"], ["airflow_dags_folder"], [("project-dir", "/tmp/proj")],
          ["/tmp/proj", "/a"], true⟩,
        ⟨["config"], ["data_dir"], [("project-dir", "/tmp/proj")],
          ["/tmp/proj", "/a", "/b"], true⟩]) := by
    simp only [globalConfigKeys, globalKeyLoop]
    rw [a1]
    dsimp only
    rw [a2]
    dsimp only
    rw [a3]
    simp
  have hbase : getBaseMountDirs env "/tmp/proj" = .ok ["/tmp/proj"] := by
    unfold getBaseMountDirs createProjectDir
    rw [show getAbsolutePath env "/tmp/proj" = .ok "/tmp/proj" from rfl]
    dsimp only
    rw [hmk]
  unfold buildFlagsAndMountDirs
  rw [hbase]
  dsimp only
  rw [show projectDirFlagStep env true "/tmp/proj" =
      .ok ("/tmp/proj", [("project-dir", "/tmp/proj")]) from rfl]
  dsimp only
  rw [show globalMountStep env true "/tmp/proj" ["/tmp/proj"] =
      globalKeyLoop env [("project-dir", "/tmp/proj")] globalConfigKeys ["/tmp/proj"] from rfl]
  rw [eg]
  simp [localDirStep]

/-- Witness for C2 at the concrete happy-path environment. -/
theorem compose_generate_end_to_end_witness :
    (buildFlagsAndMountDirs envHappy gBlank "/tmp/proj" true false false false true).1 =
      ⟨some [("project-dir", "/tmp/proj")], some ["/tmp/proj", "/a", "/b", "/c"], none⟩ :=
  compose_generate_end_to_end envHappy gBlank "/a" "/b" "/c" (by decide) (by decide)
    (by decide) (by decide) (by decide) (by decide) (by decide)

/-- C8: composing for the init table row with `airflowHome="/h"`,
`dagsFolder=""`, `dataDir="/d"` yields exactly the flags
`{"airflow-home": "/h", "data-dir": "/d"}` — the empty requested
directory contributes neither a flag nor a mount — and exactly the
mounts `[resolved project dir, "/h", "/d"]` in that order. -/
theorem compose_init_end_to_end (env : Env) (g : Globals) (pd pdAbs : String)
    (hAH : g.airflowHome = "/h") (hDF : g.airflowDagsFolder = "")
    (hDD : g.dataDir = "/d")
    (habs : getAbsolutePath env pd = .ok pdAbs)
    (hmk : env.mkdirAllErr pdAbs = none) :
    (buildFlagsAndMountDirs env g pd false true true true false).1 =
      ⟨some [("airflow-home", "/h"), ("data-dir", "/d")], some [pdAbs, "/h", "/d"], none⟩ := by
  have hbase : getBaseMountDirs env pd = .ok [pdAbs] := by
    unfold getBaseMountDirs createProjectDir
    rw [habs]
    dsimp only
    rw [hmk]
  unfold buildFlagsAndMountDirs
  rw [hbase]
  dsimp only
  rw [show projectDirFlagStep env false pd = .ok (pd, []) from rfl]
  dsimp only
  rw [show globalMountStep env false pd [pdAbs] = (([pdAbs], none), []) from rfl]
  dsimp only
  rw [hAH, hDF, hDD]
  rw [show localDirStep env true "/h" "airflow-home" [] [pdAbs] =
      .ok ([("airflow-home", "/h")], [pdAbs, "/h"]) from rfl]
  dsimp only
  rw [show localDirStep env true "" "airflow-dags-folder"
      [("airflow-home", "/h")] [pdAbs, "/h"] =
      .ok ([("airflow-home", "/h")], [pdAbs, "/h"]) from rfl]
  dsimp only
  rw [show localDirStep env true "/d" "data-dir"
      [("airflow-home", "/h")] [pdAbs, "/h"] =
      .ok ([("airflow-home", "/h"), ("data-dir", "/d")], [pdAbs, "/h", "/d"]) from rfl]

/-- Witness for C8 at the concrete happy-path environment. -/
theorem compose_init_end_to_end_witness :
    (buildFlagsAndMountDirs envHappy
        { gBlank with airflowHome := "/h", dataDir := "/d" }
        "/p" false true true true false).1 =
      ⟨some [("airflow-home", "/h"), ("data-dir", "/d")], some ["/p", "/h", "/d"], none⟩ :=
  compose_init_end_to_end envHappy
    { gBlank with airflowHome := "/h", dataDir := "/d" }
    "/p" "/p" rfl rfl rfl (by decide) (by decide)

/-- When the global-key loop fails, its trace is cut exactly at the
failing call: the trace is non-empty, re-evaluating every recorded call
but the last (on the key, flags and mount list it recorded) succeeds,
and re-evaluating the last recorded call yields exactly the returned
error — so no sub-invocation is ever issued after a failed one. -/
theorem globalKeyLoop_cut (env : Env) (cf : List (String × String)) :
    ∀ (keys : List String) (md : List String) (e : GoErr),
      (globalKeyLoop env cf keys md).1.2 = some e →
      (globalKeyLoop env cf keys md).2 ≠ [] ∧
      (∀ c ∈ (globalKeyLoop env cf keys md).2.dropLast,
        (appendConfigKeyMountDir env (c.args.headD "") c.flags c.mountDirs).1.2 = none) ∧
      (∀ c, (globalKeyLoop env cf keys md).2.getLast? = some c →
        (appendConfigKeyMountDir env (c.args.headD "") c.flags c.mountDirs).1.2 = some e) := by
  intro keys
  induction keys with
  | nil => intro md e h; simp [globalKeyLoop] at h
  | cons key keys ih =>
    intro md e h
    unfold globalKeyLoop at h ⊢
    rcases appendConfigKeyMountDir_cases env key cf md with ⟨e0, hc⟩ | ⟨s, hc⟩
    · rw [hc] at h ⊢
      dsimp only at h ⊢
      simp only [Option.some.injEq] at h
      subst h
      refine ⟨by simp, by simp, ?_⟩
      intro c hcl
      simp only [List.getLast?_singleton, Option.some.injEq] at hcl
      subst hcl
      dsimp only
      rw [List.headD_cons]
      rw [hc]
    · rw [hc] at h ⊢
      dsimp only at h ⊢
      rcases hl : globalKeyLoop env cf keys (md ++ [s]) with ⟨⟨res, e2⟩, tr'⟩
      rw [hl] at h
      dsimp only at h
      obtain ⟨hne, hpre, hlast⟩ := ih (md ++ [s]) e (by rw [hl]; exact h)
      rw [hl] at hne hpre hlast
      dsimp only at hne hpre hlast
      rcases tr' with _ | ⟨t, ts⟩
      · exact absurd rfl hne
      · refine ⟨by simp, ?_, ?_⟩
        · intro c hcl
          simp only [List.singleton_append, List.dropLast_cons₂, List.mem_cons] at hcl
          rcases hcl with hcl | hcl
          · subst hcl
            dsimp only
            rw [List.headD_cons]
            rw [hc]
          · exact hpre c hcl
        · intro c hcl
          simp only [List.singleton_append, List.getLast?_cons_cons] at hcl
          exact hlast c hcl

/-- C4: the global-key loop issues its sub-invocations strictly
sequentially in the fixed order `airflow_home, airflow_dags_folder,
data_dir`: every recorded call is a `config` sub-invocation; the keys
attempted always form an initial segment of that order; all three are
attempted exactly once when no key fails; if `data_dir` was attempted
at all then the two preceding keys were already attempted before it;
and when the loop fails its trace is non-empty and cut exactly at the
failing call — every recorded call before the last one succeeded (on
the key, flags and mount list it recorded) and the last recorded call
failed with exactly the returned error, so no key's sub-invocation is
issued after an earlier key has failed. -/
theorem global_key_loop_sequential_fixed_order (env : Env)
    (cf : List (String × String)) (md : List String) :
    (∀ c ∈ (globalKeyLoop env cf globalConfigKeys md).2,
        c.cmd = ["config"] ∧ c.returnOutput = true) ∧
    (∃ n, n ≤ 3 ∧
      (globalKeyLoop env cf globalConfigKeys md).2.map (fun c => c.args) =
        (globalConfigKeys.take n).map (fun k => [k])) ∧
    ((globalKeyLoop env cf globalConfigKeys md).1.2 = none →
      (globalKeyLoop env cf globalConfigKeys md).2.map (fun c => c.args) =
        [["airflow_home"], ["airflow_dags_folder"], ["data_dir"]]) ∧
    ((["data_dir"] ∈ (globalKeyLoop env cf globalConfigKeys md).2.map (fun c => c.args)) →
      (globalKeyLoop env cf globalConfigKeys md).2.map (fun c => c.args) =
        [["airflow_home"], ["airflow_dags_folder"], ["data_dir"]]) ∧
    (∀ e, (globalKeyLoop env cf globalConfigKeys md).1.2 = some e →
      (globalKeyLoop env cf globalConfigKeys md).2 ≠ [] ∧
      (∀ c ∈ (globalKeyLoop env cf globalConfigKeys md).2.dropLast,
        (appendConfigKeyMountDir env (c.args.headD "") c.flags c.mountDirs).1.2 = none) ∧
      (∀ c, (globalKeyLoop env cf globalConfigKeys md).2.getLast? = some c →
        (appendConfigKeyMountDir env (c.args.headD "") c.flags c.mountDirs).1.2 = some e)) := by
  obtain ⟨n, hn, htr, hnone, hsome⟩ := globalKeyLoop_trace env cf globalConfigKeys md
  have hn3 : n ≤ 3 := by simpa [globalConfigKeys] using hn
  refine ⟨?_, ⟨n, hn3, htr⟩, ?_, ?_, ?_⟩
  · exact fun c hc => globalKeyLoop_calls env cf globalConfigKeys md c hc
  · intro h
    have h3 : n = 3 := by simpa [globalConfigKeys] using hnone h
    subst h3
    rw [htr]
    decide
  · intro hmem
    rw [htr] at hmem ⊢
    interval_cases n <;> revert hmem <;> decide
  · exact fun e he => globalKeyLoop_cut env cf globalConfigKeys md e he

/-- Witness for C4: in the happy-path environment all three keys are
attempted, once each, in the fixed order; in an environment whose
executions exit 1 the failing loop's trace is non-empty (cut at the
failing first call). -/
theorem global_key_loop_sequential_fixed_order_witness :
    ((globalKeyLoop envHappy [("project-dir", "/tmp/proj")] globalConfigKeys
        ["/tmp/proj"]).2.map (fun c => c.args) =
      [["airflow_home"], ["airflow_dags_folder"], ["data_dir"]]) ∧
    (globalKeyLoop envExit1 [] globalConfigKeys ["/p"]).2 ≠ [] :=
  ⟨(global_key_loop_sequential_fixed_order envHappy [("project-dir", "/tmp/proj")]
      ["/tmp/proj"]).2.2.1 (by decide),
   ((global_key_loop_sequential_fixed_order envExit1 [] ["/p"]).2.2.2.2
      (.dockerNonZeroExit 1) (by decide)).1⟩

/-- C5 counterexample: with an executor that always exits with code 1,
two distinct global keys surface the identical error value
(`dockerNonZeroExit 1`), so no function can recover the failing key
from the surfaced error — the error does not identify the key. -/
theorem config_key_error_not_identifying :
    ¬ ∃ recover : GoErr → String, ∀ key ∈ globalConfigKeys,
        ∀ e, (appendConfigKeyMountDir envExit1 key [] []).1.2 = some e →
          recover e = key := by
  rintro ⟨recover, hr⟩
  have h1 := hr "airflow_home" (by decide) (.dockerNonZeroExit 1) (by decide)
  have h2 := hr "data_dir" (by decide) (.dockerNonZeroExit 1) (by decide)
  exact absurd (h1.symm.trans h2) (by decide)

/-- C5 amended: a failing nested config query surfaces an error that
identifies the failure mode — the transport error wrapped with the
`config` sub-invocation command, the non-zero exit code, or the decode
error as-is — but none of these error shapes includes the specific
global key being queried. -/
theorem appendConfigKeyMountDir_error_shape (env : Env) (key : String)
    (cf : List (String × String)) (md : List String) :
    (∀ u, (env.exec configCommandString [key] cf md true).err = some u →
      (appendConfigKeyMountDir env key cf md).1.2 =
        some (.errorRunning configCommandString u)) ∧
    ((env.exec configCommandString [key] cf md true).err = none →
      (env.exec configCommandString [key] cf md true).exitCode ≠ 0 →
      (appendConfigKeyMountDir env key cf md).1.2 =
        some (.dockerNonZeroExit (env.exec configCommandString [key] cf md true).exitCode)) ∧
    (∀ u, (env.exec configCommandString [key] cf md true).err = none →
      (env.exec configCommandString [key] cf md true).exitCode = 0 →
      env.decode (env.exec configCommandString [key] cf md true).output = .error u →
      (appendConfigKeyMountDir env key cf md).1.2 = some u) := by
  refine ⟨?_, ?_, ?_⟩
  · intro u hu
    unfold appendConfigKeyMountDir
    dsimp only
    rw [hu]
  · intro h0 hz
    unfold appendConfigKeyMountDir
    dsimp only
    rw [h0]
    simp [hz]
  · intro u h0 hz hd
    unfold appendConfigKeyMountDir
    dsimp only
    rw [h0]
    simp [hz, hd]

/-- Witness for the C5 amended theorem: a non-zero exit surfaces the
exit-code error. -/
theorem appendConfigKeyMountDir_error_shape_witness :
    (appendConfigKeyMountDir envExit1 "data_dir" [] []).1.2 =
      some (.dockerNonZeroExit
        (envExit1.exec configCommandString ["data_dir"] [] [] true).exitCode) :=
  (appendConfigKeyMountDir_error_shape envExit1 "data_dir" [] []).2.1
    (by decide) (by decide)

/-- C6 counterexample: when the first global key's sub-invocation fails
with a transport error, the per-key helper returns the partial mount
list `["/p"]` alongside the error, but the composer returns nil mounts
and nil flags — not the partially built list. -/
theorem composer_discards_partial_mounts :
    (appendConfigKeyMountDir envBoom "airflow_home" [("project-dir", "/p")] ["/p"]).1 =
      (["/p"], some (.errorRunning ["config"] (.mock "boom"))) ∧
    (buildFlagsAndMountDirs envBoom gBlank "/p" true false false false true).1 =
      ⟨none, none, some (.errorRunning ["config"] (.mock "boom"))⟩ ∧
    (buildFlagsAndMountDirs envBoom gBlank "/p" true false false false true).1.mountDirs ≠
      some ["/p"] :=
  ⟨by decide, by decide, by decide⟩

/-- C6 amended: whenever the composition fails — in particular when a
global key's sub-invocation fails — the composer aborts and returns
nil flags and nil mounts together with the error; the partially built
mount list is returned only by the per-key helper alongside its own
error. -/
theorem composer_error_returns_nil (env : Env) (g : Globals) (pd : String)
    (b1 b2 b3 b4 b5 : Bool) (e : GoErr)
    (h : (buildFlagsAndMountDirs env g pd b1 b2 b3 b4 b5).1.err = some e) :
    (buildFlagsAndMountDirs env g pd b1 b2 b3 b4 b5).1 = ⟨none, none, some e⟩ ∧
    (∀ key cf md e2, (appendConfigKeyMountDir env key cf md).1.2 = some e2 →
      (appendConfigKeyMountDir env key cf md).1.1 = md) := by
  constructor
  · rcases buildFlags_shape env g pd b1 b2 b3 b4 b5 with ⟨e', he⟩ | ⟨fl, md, he⟩
    · rw [he] at h
      simp at h
      rw [he, h]
    · rw [he] at h
      simp at h
  · intro key cf md e2 h2
    rcases appendConfigKeyMountDir_cases env key cf md with ⟨e3, hc⟩ | ⟨s, hc⟩
    · rw [hc]
    · rw [hc] at h2
      simp at h2

/-- Witness for the C6 amended theorem at the failing environment. -/
theorem composer_error_returns_nil_witness :
    (buildFlagsAndMountDirs envBoom gBlank "/p" true false false false true).1 =
      ⟨none, none, some (.errorRunning ["config"] (.mock "boom"))⟩ ∧
    (∀ key cf md e2, (appendConfigKeyMountDir envBoom key cf md).1.2 = some e2 →
      (appendConfigKeyMountDir envBoom key cf md).1.1 = md) :=
  composer_error_returns_nil envBoom gBlank "/p" true false false false true
    (.errorRunning ["config"] (.mock "boom")) (by decide)

/-- C9: the help-rendering path raises failures as unrecoverable panics
while the ordinary command path returns the same failures as
recoverable errors: whenever the container execution responds
identically on the two paths, the help path panics with exactly the
error value the ordinary path returns, and the help path completes
normally exactly when the ordinary path returns no error.  (The help
path's result type has no error-return channel at all, and the
ordinary path's has no panic.) -/
theorem help_panics_ordinary_returns (env env2 : Env) (cs : List String)
    (dbg : Bool) (name : String) (args : List String)
    (fl : List (String × String)) (md : List String)
    (hcs : cmdTokens dbg name = cs)
    (hsame : env2.exec cs args fl md false = env.exec cs [] [] [] false) :
    (∀ e, (executeHelp env cs).1 = .panicked e ↔
      (executeCmd env2 dbg name args fl md).1 = some e) ∧
    ((executeHelp env cs).1 = .ok ↔
      (executeCmd env2 dbg name args fl md).1 = none) := by
  unfold executeHelp executeCmd
  rw [hcs]
  dsimp only
  rw [hsame]
  cases h : (env.exec cs [] [] [] false).err with
  | some e0 => simp [h]
  | none =>
    simp only [h]
    split <;> simp

/-- Witness for C9: with an executor exiting 1, help panics with the
exit-code error and the ordinary path returns the same error. -/
theorem help_panics_ordinary_returns_witness :
    (∀ e, (executeHelp envExit1 ["validate"]).1 = .panicked e ↔
      (executeCmd envExit1 false "validate" ["x"] [] []).1 = some e) ∧
    ((executeHelp envExit1 ["validate"]).1 = .ok ↔
      (executeCmd envExit1 false "validate" ["x"] [] []).1 = none) :=
  help_panics_ordinary_returns envExit1 envExit1 ["validate"] false "validate"
    ["x"] [] [] (by decide) (by decide)

/-- C10: a successful init invocation dispatches with exactly one
positional argument — the resolved project directory, i.e. the first
element of the composed mount list — replacing whatever positional
argument the user supplied; validate behaves the same with an optional
trailing `--verbose` token. -/
theorem init_validate_dispatch_args (env : Env) (g : Globals) (userArgs : List String) :
    (∀ fl md tr,
      buildFlagsAndMountDirs env g (cliProjectDir g userArgs) false true true true false =
        (⟨some fl, some md, none⟩, tr) →
      ∃ pdAbs, getAbsolutePath env (cliProjectDir g userArgs) = .ok pdAbs ∧
        md.head? = some pdAbs ∧
        (executeInit env g userArgs).2 =
          tr ++ [⟨cmdTokens g.debug "init", [pdAbs], fl, md, false⟩]) ∧
    (∀ fl md tr,
      buildFlagsAndMountDirs env g (cliProjectDir g userArgs) false false false false false =
        (⟨some fl, some md, none⟩, tr) →
      ∃ pdAbs, getAbsolutePath env (cliProjectDir g userArgs) = .ok pdAbs ∧
        md.head? = some pdAbs ∧
        ∃ fl2, (executeValidate env g userArgs).2 =
          tr ++ [⟨cmdTokens g.debug "validate",
                  [pdAbs] ++ (if g.verbose then ["--verbose"] else []),
                  fl2, md, false⟩]) := by
  constructor
  · intro fl md tr hb
    obtain ⟨pdAbs, habs, hhead⟩ :=
      buildFlags_ok_head env g (cliProjectDir g userArgs) false true true true false
        fl md tr hb
    refine ⟨pdAbs, habs, hhead, ?_⟩
    cases md with
    | nil => simp at hhead
    | cons a l =>
      simp only [List.head?_cons, Option.some.injEq] at hhead
      subst hhead
      unfold executeInit
      dsimp only
      rw [hb]
      dsimp only
      simp only [Option.getD_some, List.headD_cons]
      rcases hec : executeCmd env g.debug "init" [a] fl (a :: l) with ⟨e0, tr0⟩
      have htr0 := executeCmd_trace env g.debug "init" [a] fl (a :: l)
      rw [hec] at htr0
      dsimp only at htr0
      dsimp only
      rw [htr0]
  · intro fl md tr hb
    obtain ⟨pdAbs, habs, hhead⟩ :=
      buildFlags_ok_head env g (cliProjectDir g userArgs) false false false false false
        fl md tr hb
    refine ⟨pdAbs, habs, hhead, ?_⟩
    cases md with
    | nil => simp at hhead
    | cons a l =>
      simp only [List.head?_cons, Option.some.injEq] at hhead
      subst hhead
      unfold executeValidate
      dsimp only
      rw [hb]
      dsimp only
      cases hv : g.verbose with
      | false =>
        simp only [Option.getD_some, List.headD_cons, Bool.false_eq_true, if_false,
          List.append_nil]
        rcases hec : executeCmd env g.debug "validate" [a]
            ((if g.connection != "" then
                (if g.environment != "" then fl ++ [("env", g.environment)] else fl) ++
                  [("connection", g.connection)]
              else
                (if g.environment != "" then fl ++ [("env", g.environment)] else fl)))
            (a :: l) with ⟨e0, tr0⟩
        have htr0 := executeCmd_trace env g.debug "validate" [a]
            ((if g.connection != "" then
                (if g.environment != "" then fl ++ [("env", g.environment)] else fl) ++
                  [("connection", g.connection)]
              else
                (if g.environment != "" then fl ++ [("env", g.environment)] else fl)))
            (a :: l)
        rw [hec] at htr0
        dsimp only at htr0
        dsimp only
        rw [htr0]
        exact ⟨_, rfl⟩
      | true =>
        simp only [Option.getD_some, List.headD_cons, eq_self_iff_true, if_true]
        rcases hec : executeCmd env g.debug "validate" ([a] ++ ["--verbose"])
            ((if g.connection != "" then
                (if g.environment != "" then fl ++ [("env", g.environment)] else fl) ++
                  [("connection", g.connection)]
              else
                (if g.environment != "" then fl ++ [("env", g.environment)] else fl)))
            (a :: l) with ⟨e0, tr0⟩
        have htr0 := executeCmd_trace env g.debug "validate" ([a] ++ ["--verbose"])
            ((if g.connection != "" then
                (if g.environment != "" then fl ++ [("env", g.environment)] else fl) ++
                  [("connection", g.connection)]
              else
                (if g.environment != "" then fl ++ [("env", g.environment)] else fl)))
            (a :: l)
        rw [hec] at htr0
        dsimp only at htr0
        dsimp only
        rw [htr0]
        exact ⟨_, rfl⟩

/-- Witness for C10: a concrete successful init invocation dispatches
`init` with the single positional argument `/p`. -/
theorem init_validate_dispatch_args_witness :
    ∃ pdAbs, getAbsolutePath envHappy (cliProjectDir gBlank ["/p"]) = .ok pdAbs ∧
      (["/p"] : List String).head? = some pdAbs ∧
      (executeInit envHappy gBlank ["/p"]).2 =
        [] ++ [⟨cmdTokens gBlank.debug "init", [pdAbs], [], ["/p"], false⟩] :=
  (init_validate_dispatch_args envHappy gBlank ["/p"]).1 [] ["/p"] [] (by decide)

end Flow
